import Mathlib

/-!
Verification development for the AeroFlow wind-tunnel visualizer.

The embedded program is `src/components/WindTunnelScene.tsx` (plus the app
shell): a React/three.js scene with

* a `Model` component that asynchronously parses an uploaded STL mesh
  (lines 102-155) and drives the `AerodynamicMaterial` fragment shader
  (lines 11-93), and
* a `Streamlines` component maintaining a fixed pool of instanced particles
  advected along the wind each frame (lines 164-250).

Numerics: per-frame particle arithmetic (advection, wrapping, scaling) uses
only field and order operations, so it is embedded over `ℚ` exactly.  The
shader and the orientation math need `sqrt`/`sin`, so they are embedded over
`ℝ`.  JavaScript `Math.random()` draws are modelled as explicit inputs in
`[0, 1)`.  The asynchronous mesh-load behaviour of `Model` is embedded as a
small event-step machine over upload identifiers.
-/

namespace AeroFlow

/-! ## Particle system state (Streamlines, lines 169-181) -/

/-- A 3-vector of rationals, for the exact per-frame particle arithmetic. -/
structure Vec3Q where
  x : ℚ
  y : ℚ
  z : ℚ
deriving DecidableEq

/-- One streamline element (source lines 172-178): position plus the
per-particle speed and size variation drawn at pool creation. -/
structure Particle where
  x : ℚ
  y : ℚ
  z : ℚ
  speedOffset : ℚ
  sizeOffset : ℚ
deriving DecidableEq

/-- The five `Math.random()` draws consumed when one particle is created
(source lines 173-177); each component is assumed to lie in `[0, 1)`. -/
structure InitRand where
  px : ℚ
  py : ℚ
  pz : ℚ
  so : ℚ
  szo : ℚ

/-- Particle creation (source lines 172-178):
position `(Math.random() - 0.5) * bounds` per axis,
`speedOffset = Math.random() * 0.5 + 0.8`,
`sizeOffset = Math.random() * 0.5 + 0.5`. -/
def mkParticle (bounds : ℚ) (r : InitRand) : Particle :=
  { x := (r.px - 0.5) * bounds
    y := (r.py - 0.5) * bounds
    z := (r.pz - 0.5) * bounds
    speedOffset := r.so * 0.5 + 0.8
    sizeOffset := r.szo * 0.5 + 0.5 }

/-- The particle pool built by the `useMemo` initializer (source lines
169-181): `count` freshly randomized particles. -/
def initPool (count : ℕ) (bounds : ℚ) (rs : ℕ → InitRand) : List Particle :=
  (List.range count).map fun i => mkParticle bounds (rs i)

/-- Pool reconfiguration: the `useMemo` dependency list `[count, bounds]`
means a change of either rebuilds the pool from scratch; the previous pool
(`old`) is discarded, not consulted. -/
def rebuildPool (_old : List Particle) (count : ℕ) (bounds : ℚ)
    (rs : ℕ → InitRand) : List Particle :=
  initPool count bounds rs

/-! ## Per-frame particle update (Streamlines, lines 183-235) -/

/-- JavaScript `Math.sign`. -/
def signJS (q : ℚ) : ℚ := if 0 < q then 1 else if q < 0 then -1 else 0

/-- One axis of the wrap logic (source lines 200-215, identical for x/y/z):
after advection, a coordinate whose absolute value exceeds `bounds / 2` is
respawned; `rand` models the `Math.random()` draw of that branch. -/
def wrapAxis (bounds dirA coord rand : ℚ) : ℚ :=
  let halfBounds := bounds / 2
  if |coord| > halfBounds then
    if |dirA| > 0.1 then -signJS dirA * halfBounds + (rand * 10 - 5)
    else (rand - 0.5) * bounds
  else coord

/-- The three `Math.random()` draws available to one particle's wrap step in
one frame (at most one per axis is consumed). -/
structure Rand3 where
  rx : ℚ
  ry : ℚ
  rz : ℚ

/-- One particle's per-frame update (source lines 189-215): advect by
`dir * (speed * speedOffset * delta * 5)`, then wrap each axis once.
`dir` is the already-normalized wind direction of lines 186-187. -/
def advanceParticle (speed delta bounds : ℚ) (dir : Vec3Q) (r : Rand3)
    (p : Particle) : Particle :=
  let moveSpeed := speed * p.speedOffset * delta * 5
  { p with
    x := wrapAxis bounds dir.x (p.x + dir.x * moveSpeed) r.rx
    y := wrapAxis bounds dir.y (p.y + dir.y * moveSpeed) r.ry
    z := wrapAxis bounds dir.z (p.z + dir.z * moveSpeed) r.rz }

/-- The `particles.forEach((particle, i) => ...)` loop carrying the index
`i` (source line 189); `rs i` supplies particle `i`'s random draws. -/
def advancePoolAux (speed delta bounds : ℚ) (dir : Vec3Q) (rs : ℕ → Rand3) :
    ℕ → List Particle → List Particle
  | _, [] => []
  | i, p :: ps =>
      advanceParticle speed delta bounds dir (rs i) p ::
        advancePoolAux speed delta bounds dir rs (i + 1) ps

/-- One whole-frame update of the pool (source lines 183-235). -/
def advancePool (speed delta bounds : ℚ) (dir : Vec3Q) (rs : ℕ → Rand3)
    (pool : List Particle) : List Particle :=
  advancePoolAux speed delta bounds dir rs 0 pool

/-! ## Streak scaling (Streamlines, lines 224-228) -/

/-- Streak length (source line 226): `Math.max(2, speed * 0.8)`. -/
def stretchOf (speed : ℚ) : ℚ := max 2 (speed * 0.8)

/-- Cross-sectional thickness (source line 227): `0.3 * particle.sizeOffset`. -/
def thicknessOf (p : Particle) : ℚ := 0.3 * p.sizeOffset

/-- The scale committed per instance (source line 228):
`dummy.scale.set(stretch, thickness, thickness)`. -/
def scaleOf (speed : ℚ) (p : Particle) : Vec3Q :=
  ⟨stretchOf speed, thicknessOf p, thicknessOf p⟩

/-! ## Asynchronous mesh loading (Model, lines 102-134)

The `useEffect` at lines 106-115 issues `loader.load(url, onSuccess)` for the
current `url`; each upload is tagged here by a natural-number id.  The success
callback runs `setGeometry(geo)` unconditionally - the effect installs no
staleness guard and registers **no error callback** (the `load` call passes
only the success handler), so a failed parse delivers nothing to the
component.  The `useFrame` body (lines 117-132) never throws, so the render
loop stays live across load events. -/

/-- Observable state of the `Model` component and its caller. -/
structure LoaderState where
  /-- `geometry` state (line 103), tagged by the upload id whose parse set it. -/
  geometry : Option ℕ
  /-- the latest `url` prop handed to the component. -/
  latestUrl : Option ℕ
  /-- upload ids for which a load (and hence a live callback) was issued. -/
  issued : List ℕ
  /-- `onLoad` invocations observed by the caller (line 113). -/
  loadNotices : List ℕ
  /-- `LoadError` deliveries observed by the caller (none can occur: the
  `loader.load` call at line 108 registers no error handler). -/
  errorNotices : List ℕ
  /-- whether the `useFrame` render loop is still running. -/
  renderLoopLive : Bool
deriving DecidableEq

/-- Events of the asynchronous load protocol. -/
inductive LoadEvent where
  /-- a new mesh upload: the `url` prop changes and the effect re-runs. -/
  | upload (uid : ℕ)
  /-- the STL parse of upload `uid` completes successfully. -/
  | parseDone (uid : ℕ)
  /-- the STL parse of upload `uid` fails (malformed resource or
  unreadable stream). -/
  | parseFail (uid : ℕ)
deriving DecidableEq

/-- Initial state: no geometry (line 103: `useState(null)`), render loop live. -/
def initLoader : LoaderState :=
  { geometry := none, latestUrl := none, issued := [], loadNotices := []
    errorNotices := [], renderLoopLive := true }

/-- One event step of the `Model` load protocol, as the source behaves:
an upload issues a fresh load; a successful parse of any issued load runs
`setGeometry` and `onLoad` with no staleness check (lines 108-114); a failed
parse reaches no handler at all, so the state is untouched. -/
def loadStep (s : LoaderState) (e : LoadEvent) : LoaderState :=
  match e with
  | .upload uid => { s with latestUrl := some uid, issued := uid :: s.issued }
  | .parseDone uid =>
      if uid ∈ s.issued then
        { s with geometry := some uid, loadNotices := uid :: s.loadNotices }
      else s
  | .parseFail _ => s

/-- Run a sequence of load events from a state. -/
def runLoad (s : LoaderState) (es : List LoadEvent) : LoaderState :=
  es.foldl loadStep s

/-! ## Real-valued vector algebra

World-space vectors for the shader and for the instance orientation,
embedded as triples of reals (`v.1`, `v.2.1`, `v.2.2` are x, y, z). -/

/-- A 3-vector of reals. -/
abbrev Vec3R : Type := ℝ × ℝ × ℝ

/-- Componentwise sum. -/
def addR (a b : Vec3R) : Vec3R := (a.1 + b.1, a.2.1 + b.2.1, a.2.2 + b.2.2)

/-- Componentwise difference. -/
def subR (a b : Vec3R) : Vec3R := (a.1 - b.1, a.2.1 - b.2.1, a.2.2 - b.2.2)

/-- Scalar multiple. -/
def smulR (c : ℝ) (v : Vec3R) : Vec3R := (c * v.1, c * v.2.1, c * v.2.2)

/-- Componentwise negation (GLSL `-v`). -/
def negR (v : Vec3R) : Vec3R := (-v.1, -v.2.1, -v.2.2)

/-- Dot product. -/
def dotR (a b : Vec3R) : ℝ := a.1 * b.1 + a.2.1 * b.2.1 + a.2.2 * b.2.2

/-- Cross product (`THREE.Vector3.crossVectors`). -/
def crossR (a b : Vec3R) : Vec3R :=
  (a.2.1 * b.2.2 - a.2.2 * b.2.1,
   a.2.2 * b.1 - a.1 * b.2.2,
   a.1 * b.2.1 - a.2.1 * b.1)

/-- Squared length. -/
def lengthSqR (v : Vec3R) : ℝ := dotR v v

/-- Length. -/
noncomputable def lengthR (v : Vec3R) : ℝ := Real.sqrt (lengthSqR v)

/-- `THREE.Vector3.normalize`: `divideScalar(length() || 1)` - the zero
vector (length `0`) is divided by `1`, i.e. left unchanged. -/
noncomputable def normalizeV (v : Vec3R) : Vec3R :=
  smulR (1 / (if lengthR v = 0 then 1 else lengthR v)) v

/-- GLSL `normalize(v) = v / length(v)` (the shader applies it to `vNormal`
and `uWindDir`, both guaranteed non-zero by the caller). -/
noncomputable def glslNormalize (v : Vec3R) : Vec3R :=
  smulR (1 / lengthR v) v

/-- The wind-direction computation shared by the `Model` frame callback
(lines 120-127) and `Streamlines` (lines 186-187): normalize, then replace
a degenerate all-zero result by `(1, 0, 0)`. -/
noncomputable def windDirOf (v : Vec3R) : Vec3R :=
  let dir := normalizeV v
  if lengthSqR dir = 0 then ((1 : ℝ), 0, 0) else dir

/-! ## Particle orientation (Streamlines, lines 217-231)

`dummy.lookAt` (three.js `Object3D.lookAt` for a non-camera object) builds
the rotation from `Matrix4.lookAt(target, position, up)`, whose basis
columns are the world images of the local x/y/z axes; the local **+z** axis
ends up pointing at the target.  The near-vertical fallback instead uses
`Quaternion.setFromUnitVectors((1,0,0), dir)`. -/

/-- The default `Object3D.up`, `(0, 1, 0)` (also `up` at source line 220). -/
def upDefault : Vec3R := ((0 : ℝ), 1, 0)

/-- JavaScript `Number.EPSILON`. -/
noncomputable def numberEpsilon : ℝ := 2 ^ (-52 : ℤ)

/-- A quaternion, `(x, y, z, w)` as in three.js. -/
structure Quat where
  x : ℝ
  y : ℝ
  z : ℝ
  w : ℝ

/-- Quaternion length. -/
noncomputable def qLength (q : Quat) : ℝ :=
  Real.sqrt (q.x * q.x + q.y * q.y + q.z * q.z + q.w * q.w)

/-- `THREE.Quaternion.normalize`: length `0` yields the identity
quaternion, otherwise divide every component by the length. -/
noncomputable def qNormalize (q : Quat) : Quat :=
  let l := qLength q
  if l = 0 then ⟨0, 0, 0, 1⟩ else ⟨q.x / l, q.y / l, q.z / l, q.w / l⟩

/-- `THREE.Quaternion.setFromUnitVectors(vFrom, vTo)`: the minimal rotation
taking the unit vector `vFrom` onto `vTo`. -/
noncomputable def setFromUnitVectors (vFrom vTo : Vec3R) : Quat :=
  let r := dotR vFrom vTo + 1
  qNormalize <|
    if r < numberEpsilon then
      if |vFrom.1| > |vFrom.2.2| then ⟨-vFrom.2.1, vFrom.1, 0, 0⟩
      else ⟨0, -vFrom.2.2, vFrom.2.1, 0⟩
    else
      ⟨vFrom.2.1 * vTo.2.2 - vFrom.2.2 * vTo.2.1,
       vFrom.2.2 * vTo.1 - vFrom.1 * vTo.2.2,
       vFrom.1 * vTo.2.1 - vFrom.2.1 * vTo.1, r⟩

/-- `THREE.Vector3.applyQuaternion`: `v + 2w (q×v) + 2 q×(q×v)` in its
`t = 2(q×v); v + w t + q×t` form. -/
noncomputable def quatApply (q : Quat) (v : Vec3R) : Vec3R :=
  let qv : Vec3R := (q.x, q.y, q.z)
  let t := smulR 2 (crossR qv v)
  addR v (addR (smulR q.w t) (crossR qv t))

/-- `THREE.Matrix4.lookAt(eye, target, up)`: returns the rotation's basis
columns `(x, y, z)`, i.e. the world images of the local axes, including the
degenerate-input adjustments of the three.js source. -/
noncomputable def lookAtCols (eye target upv : Vec3R) : Vec3R × Vec3R × Vec3R :=
  let z0 := subR eye target
  let z1 := if lengthSqR z0 = 0 then (z0.1, z0.2.1, (1 : ℝ)) else z0
  let z2 := normalizeV z1
  let x0 := crossR upv z2
  if lengthSqR x0 = 0 then
    let z3 : Vec3R :=
      if |upv.2.2| = 1 then (z2.1 + 0.0001, z2.2.1, z2.2.2)
      else (z2.1, z2.2.1, z2.2.2 + 0.0001)
    let z4 := normalizeV z3
    let x1 := normalizeV (crossR upv z4)
    (x1, crossR z4 x1, z4)
  else
    let x1 := normalizeV x0
    (x1, crossR z2 x1, z2)

/-- `Object3D.lookAt(target)` for a non-camera object at `position`:
rotation basis from `Matrix4.lookAt(target, position, up)` - the local +z
axis points at the target. -/
noncomputable def lookAtOrient (position target : Vec3R) : Vec3R × Vec3R × Vec3R :=
  lookAtCols target position upDefault

/-- The orientation chosen for one particle (source lines 219-222): the
world images of the local x/y/z axes.  If `|dir.dot(up)| > 0.99` the
quaternion fallback rotates `(1,0,0)` onto `dir`; otherwise
`dummy.lookAt(particle + dir)` is used. -/
noncomputable def particleAxes (pos dir : Vec3R) : Vec3R × Vec3R × Vec3R :=
  if |dotR dir upDefault| > 0.99 then
    let q := setFromUnitVectors ((1 : ℝ), 0, 0) dir
    (quatApply q ((1 : ℝ), 0, 0), quatApply q ((0 : ℝ), 1, 0),
     quatApply q ((0 : ℝ), 0, 1))
  else lookAtOrient pos (addR pos dir)

/-- Streak length over `ℝ` (source line 226), for the instance transform. -/
noncomputable def stretchOfR (speed : ℝ) : ℝ := max 2 (speed * 0.8)

/-- Columns of the linear part of the committed instance matrix
(`compose(position, quaternion, scale)`, source lines 226-231): the
rotation columns scaled by `(stretch, thickness, thickness)`.  The first
local axis is the one that carries the stretch factor. -/
noncomputable def instanceCols (pos dir : Vec3R) (speed sizeOff : ℝ) :
    Vec3R × Vec3R × Vec3R :=
  let a := particleAxes pos dir
  (smulR (stretchOfR speed) a.1,
   smulR (0.3 * sizeOff) a.2.1,
   smulR (0.3 * sizeOff) a.2.2)

/-! ## The pressure fragment shader (AerodynamicMaterial, lines 35-92) -/

/-- `uColorHigh` (red). -/
def uColorHigh : Vec3R := ((1 : ℝ), 0.2, 0)

/-- `uColorMid` (yellow). -/
def uColorMid : Vec3R := ((1 : ℝ), 1, 0)

/-- `uColorLow` (blue). -/
def uColorLow : Vec3R := ((0 : ℝ), 0.5, 1)

/-- GLSL `clamp(u, 0.0, 1.0)`. -/
noncomputable def clamp01 (u : ℝ) : ℝ := min (max u 0) 1

/-- The cubic Hermite polynomial `t * t * (3 - 2 * t)` of GLSL `smoothstep`. -/
noncomputable def hermite (t : ℝ) : ℝ := t * t * (3 - 2 * t)

/-- GLSL `smoothstep(e0, e1, x)`. -/
noncomputable def smoothstepG (e0 e1 x : ℝ) : ℝ :=
  hermite (clamp01 ((x - e0) / (e1 - e0)))

/-- GLSL `mix(a, b, t) = a * (1 - t) + b * t`, one scalar component. -/
noncomputable def mixS (a b t : ℝ) : ℝ := a * (1 - t) + b * t

/-- Shader line 64: `flowPhase = dot(vWorldPosition, normalize(uWindDir))
* 0.5 - uTime * 10.0`. -/
noncomputable def flowPhaseOf (P W : Vec3R) (t : ℝ) : ℝ :=
  dotR P (glslNormalize W) * 0.5 - t * 10

/-- Shader line 65: `flowEffect = sin(flowPhase) * 0.05`. -/
noncomputable def flowEffectOf (P W : Vec3R) (t : ℝ) : ℝ :=
  Real.sin (flowPhaseOf P W t) * 0.05

/-- Shader line 70: the wake turbulence term. -/
noncomputable def turbulenceOf (P : Vec3R) (t : ℝ) : ℝ :=
  Real.sin (P.1 * 5 + t * 10) * Real.sin (P.2.1 * 5 + t * 8) * 0.15

/-- Shader line 60: `intensity = dot(normalize(vNormal), -normalize(uWindDir))`. -/
noncomputable def rawIntensity (N W : Vec3R) : ℝ :=
  dotR (glslNormalize N) (negR (glslNormalize W))

/-- Shader lines 68-75: the animated adjustment of `intensity` - wake
turbulence below `-0.2`, the flow ripple otherwise. -/
noncomputable def adjustedIntensity (N P W : Vec3R) (t : ℝ) : ℝ :=
  let i := rawIntensity N W
  if i < -0.2 then i + turbulenceOf P t else i + flowEffectOf P W t

/-- Shader lines 77-88, one scalar channel: the three-band color mapping of
the adjusted intensity `i`, with channel values `lc`/`mc`/`hc` of the
low/mid/high reference colors and the wake brightness term `fe`. -/
noncomputable def colorMapC (lc mc hc fe i : ℝ) : ℝ :=
  if i > 0.2 then mixS mc hc (smoothstepG 0.2 1 i)
  else if i > -0.2 then mixS lc mc (smoothstepG (-0.2) 0.2 i)
  else lc * (0.6 + fe)

/-- Shader lines 77-88 on vectors (GLSL `mix` and `*` act componentwise). -/
noncomputable def colorMapV (low mid high : Vec3R) (fe i : ℝ) : Vec3R :=
  (colorMapC low.1 mid.1 high.1 fe i,
   colorMapC low.2.1 mid.2.1 high.2.1 fe i,
   colorMapC low.2.2 mid.2.2 high.2.2 fe i)

/-- The whole fragment shader (lines 44-91): RGB color and alpha of
`gl_FragColor = vec4(color, 1.0)`. -/
noncomputable def fragColor (N P W : Vec3R) (t : ℝ) : Vec3R × ℝ :=
  (colorMapV uColorLow uColorMid uColorHigh (flowEffectOf P W t)
      (adjustedIntensity N P W t), 1)

/-! ## Helper lemmas -/

/-- The indexed frame loop preserves the pool length. -/
theorem advancePoolAux_length (speed delta bounds : ℚ) (dir : Vec3Q)
    (rs : ℕ → Rand3) : ∀ (i : ℕ) (l : List Particle),
    (advancePoolAux speed delta bounds dir rs i l).length = l.length := by
  intro i l
  induction l generalizing i with
  | nil => rfl
  | cons p ps ih => simp [advancePoolAux, ih]

/-- The indexed frame loop preserves every particle's `speedOffset`. -/
theorem advancePoolAux_map_speedOffset (speed delta bounds : ℚ) (dir : Vec3Q)
    (rs : ℕ → Rand3) : ∀ (i : ℕ) (l : List Particle),
    (advancePoolAux speed delta bounds dir rs i l).map Particle.speedOffset
      = l.map Particle.speedOffset := by
  intro i l
  induction l generalizing i with
  | nil => rfl
  | cons p ps ih => simp [advancePoolAux, ih, advanceParticle]

/-- The indexed frame loop preserves every particle's `sizeOffset`. -/
theorem advancePoolAux_map_sizeOffset (speed delta bounds : ℚ) (dir : Vec3Q)
    (rs : ℕ → Rand3) : ∀ (i : ℕ) (l : List Particle),
    (advancePoolAux speed delta bounds dir rs i l).map Particle.sizeOffset
      = l.map Particle.sizeOffset := by
  intro i l
  induction l generalizing i with
  | nil => rfl
  | cons p ps ih => simp [advancePoolAux, ih, advanceParticle]

/-! ## Claims about the asynchronous mesh load (C1, C2) -/

/-- Claim C1 (code bug in the source): the load effect at lines 106-115
installs no staleness guard, so after uploading mesh A (id 0), then mesh B
(id 1) before A's parse completes, with B's parse finishing first, A's late
completion still runs `setGeometry`: the installed geometry is the
superseded upload's (id 0) although the latest upload is id 1 - B's
geometry is not what ends up rendered. -/
theorem stale_load_overwrites_latest :
    (runLoad initLoader
      [.upload 0, .upload 1, .parseDone 1, .parseDone 0]).latestUrl = some 1
    ∧ (runLoad initLoader
      [.upload 0, .upload 1, .parseDone 1, .parseDone 0]).geometry = some 0
    ∧ (runLoad initLoader
      [.upload 0, .upload 1, .parseDone 1, .parseDone 0]).geometry ≠
      (runLoad initLoader
      [.upload 0, .upload 1, .parseDone 1, .parseDone 0]).latestUrl := by
  decide

/-- Claim C2, counterexample to the claim as stated: a mesh load that fails
delivers no `LoadError` to the caller - the `loader.load` call at line 108
passes a success callback only, so the failure of upload 0 leaves the
caller's error notifications empty (while the state is indeed untouched and
the render loop stays live). -/
theorem load_failure_never_reported :
    (runLoad initLoader [.upload 0, .parseFail 0]).errorNotices = []
    ∧ (runLoad initLoader [.upload 0, .parseFail 0]).geometry = none
    ∧ (runLoad initLoader [.upload 0, .parseFail 0]).renderLoopLive = true := by
  decide

/-- Claim C2 (amended): for every mesh load that fails, the Core state is
unchanged - the previously active Surface (or the no-Surface state) remains
active and the render loop is not terminated - but no `LoadError` is
reported to the caller, since the load call registers no error callback. -/
theorem load_failure_state_unchanged (s : LoaderState) (uid : ℕ) :
    loadStep s (.parseFail uid) = s
    ∧ (loadStep s (.parseFail uid)).geometry = s.geometry
    ∧ (loadStep s (.parseFail uid)).renderLoopLive = s.renderLoopLive
    ∧ (loadStep s (.parseFail uid)).errorNotices = s.errorNotices :=
  ⟨rfl, rfl, rfl, rfl⟩

/-! ## Claims about the particle update (C6, C8, C9, C10) -/

/-- Claim C6: per axis and per frame, the advected coordinate is wrapped
exactly once: a coordinate with `|coord| ≤ bounds/2` is kept; one that
exceeds `bounds/2` respawns at `-sign(dir) * bounds/2` plus a jitter in
`[-5, 5]` when the wind has magnitude above `0.1` on that axis, and
uniformly inside `[-bounds/2, bounds/2]` otherwise. -/
theorem advance_wrap_per_axis (speed delta bounds dirA coord rand : ℚ)
    (dir : Vec3Q) (r : Rand3) (p : Particle)
    (h0 : 0 ≤ rand) (h1 : rand < 1) :
    ((advanceParticle speed delta bounds dir r p).x
        = wrapAxis bounds dir.x
            (p.x + dir.x * (speed * p.speedOffset * delta * 5)) r.rx
      ∧ (advanceParticle speed delta bounds dir r p).y
        = wrapAxis bounds dir.y
            (p.y + dir.y * (speed * p.speedOffset * delta * 5)) r.ry
      ∧ (advanceParticle speed delta bounds dir r p).z
        = wrapAxis bounds dir.z
            (p.z + dir.z * (speed * p.speedOffset * delta * 5)) r.rz)
    ∧ (|coord| ≤ bounds / 2 → wrapAxis bounds dirA coord rand = coord)
    ∧ (|coord| > bounds / 2 → |dirA| > 0.1 →
        wrapAxis bounds dirA coord rand
          = -signJS dirA * (bounds / 2) + (rand * 10 - 5)
        ∧ -5 ≤ rand * 10 - 5 ∧ rand * 10 - 5 ≤ 5)
    ∧ (|coord| > bounds / 2 → ¬ |dirA| > 0.1 →
        wrapAxis bounds dirA coord rand = (rand - 0.5) * bounds
        ∧ (0 ≤ bounds → -(bounds / 2) ≤ (rand - 0.5) * bounds
            ∧ (rand - 0.5) * bounds ≤ bounds / 2)) := by
  refine ⟨⟨rfl, rfl, rfl⟩, ?_, ?_, ?_⟩
  · intro h
    simp [wrapAxis, not_lt.mpr h]
  · intro hb hd
    exact ⟨by simp [wrapAxis, hb, hd], by linarith, by linarith⟩
  · intro hb hd
    refine ⟨by simp [wrapAxis, hb, hd], fun hbnd => ⟨by nlinarith, by nlinarith⟩⟩

/-- Witness for C6: `bounds = 150`, wind `(1,0,0)`, advected `x = 76`
(out of bounds since `76 > 75`), draw `1/2`: the particle respawns exactly
at the upwind face, `x = -75`. -/
theorem advance_wrap_per_axis_witness :
    wrapAxis 150 1 76 (1/2) = -75 := by
  have h := advance_wrap_per_axis 1 1 150 1 76 (1/2) ⟨1, 0, 0⟩ ⟨1/2, 1/2, 1/2⟩
    ⟨0, 0, 0, 1, 1⟩ (by norm_num) (by norm_num)
  have h2 := (h.2.2.1 (by norm_num) (by norm_num)).1
  rw [h2]
  norm_num [signJS]

/-- Claim C8: the pool is created with exactly `count` particles, all
positioned inside the cubic bounds volume; an advance step neither creates
nor destroys a particle; and any reconfiguration rebuilds the pool from
scratch to the new size, unconditionally and independently of the prior
pool's state. -/
theorem pool_size_invariant (count count' : ℕ) (bounds bounds' : ℚ)
    (rs rs' : ℕ → InitRand) (rands : ℕ → Rand3) (speed delta : ℚ)
    (dir : Vec3Q) (pool old old' : List Particle) (r : InitRand)
    (hb : 0 ≤ bounds)
    (hx0 : 0 ≤ r.px) (hx1 : r.px < 1) (hy0 : 0 ≤ r.py) (hy1 : r.py < 1)
    (hz0 : 0 ≤ r.pz) (hz1 : r.pz < 1) :
    (initPool count bounds rs).length = count
    ∧ |(mkParticle bounds r).x| ≤ bounds / 2
    ∧ |(mkParticle bounds r).y| ≤ bounds / 2
    ∧ |(mkParticle bounds r).z| ≤ bounds / 2
    ∧ (advancePool speed delta bounds dir rands pool).length = pool.length
    ∧ rebuildPool old count' bounds' rs' = initPool count' bounds' rs'
    ∧ rebuildPool old count' bounds' rs' = rebuildPool old' count' bounds' rs'
    ∧ (rebuildPool old count' bounds' rs').length = count' := by
  refine ⟨by simp [initPool], ?_, ?_, ?_,
    advancePoolAux_length speed delta bounds dir rands 0 pool, rfl, rfl,
    by simp [rebuildPool, initPool]⟩
  all_goals simp only [mkParticle]
  all_goals rw [abs_le]
  · exact ⟨by nlinarith, by nlinarith⟩
  · exact ⟨by nlinarith, by nlinarith⟩
  · exact ⟨by nlinarith, by nlinarith⟩

/-- Witness for C8: a concrete two-particle pool with `bounds = 150` has
length two and its particles sit inside the cube. -/
theorem pool_size_invariant_witness :
    (initPool 2 150 (fun _ => ⟨0, 0, 0, 0, 0⟩)).length = 2
    ∧ |(mkParticle 150 ⟨0, 0, 0, 0, 0⟩).x| ≤ 150 / 2 := by
  have h := pool_size_invariant 2 3 150 100 (fun _ => ⟨0, 0, 0, 0, 0⟩)
    (fun _ => ⟨0, 0, 0, 0, 0⟩) (fun _ => ⟨0, 0, 0⟩) 1 1 ⟨1, 0, 0⟩ [] [] []
    ⟨0, 0, 0, 0, 0⟩ (by norm_num) (by norm_num) (by norm_num) (by norm_num)
    (by norm_num) (by norm_num) (by norm_num)
  exact ⟨h.1, h.2.1⟩

/-- Claim C9: the streak stretch `max(2, speed * 0.8)` is monotonically
non-decreasing in the speed and never below `2`, and the cross-sectional
thickness `0.3 * sizeOffset` of a given particle is identical at any two
speeds. -/
theorem stretch_monotone_thickness_const (s1 s2 s : ℚ) (p : Particle)
    (hs : 0 ≤ s1) (h12 : s1 ≤ s2) :
    stretchOf s1 ≤ stretchOf s2 ∧ 2 ≤ stretchOf s
    ∧ (scaleOf s1 p).y = (scaleOf s2 p).y
    ∧ (scaleOf s1 p).z = (scaleOf s2 p).z
    ∧ (scaleOf s1 p).y = 0.3 * p.sizeOffset :=
  ⟨max_le_max le_rfl (by nlinarith), le_max_left _ _, rfl, rfl, rfl⟩

/-- Witness for C9 at speeds `0 ≤ 5`. -/
theorem stretch_monotone_thickness_const_witness :
    stretchOf 0 ≤ stretchOf 5 ∧ 2 ≤ stretchOf 5 := by
  have h := stretch_monotone_thickness_const 0 5 5 ⟨0, 0, 0, 1, 1⟩ le_rfl
    (by norm_num)
  exact ⟨h.1, h.2.1⟩

/-- Claim C10: a frame advance mutates only particle positions (and the
committed instance transforms): `speedOffset` and `sizeOffset` survive every
advance unchanged, per particle and across the whole pool. -/
theorem advance_preserves_offsets (speed delta bounds : ℚ) (dir : Vec3Q)
    (r : Rand3) (rands : ℕ → Rand3) (p : Particle) (pool : List Particle) :
    (advanceParticle speed delta bounds dir r p).speedOffset = p.speedOffset
    ∧ (advanceParticle speed delta bounds dir r p).sizeOffset = p.sizeOffset
    ∧ (advancePool speed delta bounds dir rands pool).map Particle.speedOffset
        = pool.map Particle.speedOffset
    ∧ (advancePool speed delta bounds dir rands pool).map Particle.sizeOffset
        = pool.map Particle.sizeOffset :=
  ⟨rfl, rfl, advancePoolAux_map_speedOffset speed delta bounds dir rands 0 pool,
    advancePoolAux_map_sizeOffset speed delta bounds dir rands 0 pool⟩

/-! ## Claims about normalization, the wake color, and orientation (C7, C5, C3) -/

/-- Claim C7: the wind-direction normalization performed for the shader
uniform (Model, lines 120-127) and for the particle update (Streamlines,
lines 186-187) - both are `windDirOf` - returns an already-unit vector
unchanged, and maps the all-zero vector to the defined fallback `(1, 0, 0)`
instead of failing. -/
theorem windDir_unit_fixed_and_zero_fallback (v : Vec3R)
    (hv : lengthSqR v = 1) :
    windDirOf v = v ∧ windDirOf ((0 : ℝ), 0, 0) = ((1 : ℝ), 0, 0) := by
  constructor
  · have hl : lengthR v = 1 := by rw [lengthR, hv, Real.sqrt_one]
    have hnv : normalizeV v = v := by
      simp [normalizeV, hl, smulR]
    simp [windDirOf, hnv, hv]
  · simp [windDirOf, normalizeV, lengthR, lengthSqR, dotR, smulR]

/-- Witness for C7: the unit vector `(1,0,0)` is a fixed point of the
normalization, and the zero vector maps to `(1,0,0)`. -/
theorem windDir_unit_fixed_and_zero_fallback_witness :
    windDirOf ((1 : ℝ), 0, 0) = ((1 : ℝ), 0, 0)
    ∧ windDirOf ((0 : ℝ), 0, 0) = ((1 : ℝ), 0, 0) :=
  windDir_unit_fixed_and_zero_fallback ((1 : ℝ), 0, 0)
    (by norm_num [lengthSqR, dotR])

/-- Claim C5: at every surface point whose adjusted intensity is at most
`-0.2` the fragment color is exactly the Low reference color scaled by the
brightness factor `0.6 + flowEffect`, where `flowEffect` is the very value
computed in step 2 for the non-wake ripple branch; and the output alpha is
always `1`. -/
theorem wake_color_and_alpha (N P W : Vec3R) (t : ℝ)
    (h : adjustedIntensity N P W t ≤ -0.2) :
    (fragColor N P W t).1 = smulR (0.6 + flowEffectOf P W t) uColorLow
    ∧ (fragColor N P W t).2 = 1 := by
  have h1 : ¬ adjustedIntensity N P W t > 0.2 := by
    rw [not_lt]
    calc adjustedIntensity N P W t ≤ -0.2 := h
    _ ≤ 0.2 := by norm_num
  have h2 : ¬ adjustedIntensity N P W t > -0.2 := not_lt.mpr h
  refine ⟨?_, rfl⟩
  show colorMapV uColorLow uColorMid uColorHigh (flowEffectOf P W t)
      (adjustedIntensity N P W t) = _
  simp only [colorMapV, colorMapC, if_neg h1, if_neg h2, uColorLow, smulR]
  norm_num [mul_comm]

/-- Witness for C5: with `N = (1,0,0)`, `W = (1,0,0)`, `P = 0`, `t = 0` the
raw intensity is `-1`, the turbulence term vanishes, and the wake branch
fires with `flowEffect = 0`. -/
theorem wake_color_and_alpha_witness :
    (fragColor ((1 : ℝ), 0, 0) ((0 : ℝ), 0, 0) ((1 : ℝ), 0, 0) 0).1
      = smulR (0.6 + flowEffectOf ((0 : ℝ), 0, 0) ((1 : ℝ), 0, 0) 0) uColorLow
    ∧ (fragColor ((1 : ℝ), 0, 0) ((0 : ℝ), 0, 0) ((1 : ℝ), 0, 0) 0).2 = 1 :=
  wake_color_and_alpha ((1 : ℝ), 0, 0) ((0 : ℝ), 0, 0) ((1 : ℝ), 0, 0) 0
    (by norm_num [adjustedIntensity, rawIntensity, turbulenceOf, glslNormalize,
      lengthR, lengthSqR, dotR, negR, smulR, Real.sqrt_one])

/-- Claim C3 (code bug in the source): at the app's default wind direction
`(1,0,0)` the ordinary look-at branch is taken; it orients the local +z
axis along the wind, while the stretch factor `max(2, speed*0.8)` is
applied to the local x axis, whose world image is `(0,0,-1)` - orthogonal
to the wind, not along it.  With speed 20 and `sizeOffset = 1` the
committed instance matrix therefore stretches the streak by 16 units
perpendicular to the travel direction and gives the along-wind axis the
0.3 thickness.  (The degenerate near-vertical branch, by contrast, rotates
the stretch-carrying x axis exactly onto `dir`.) -/
theorem lookat_branch_stretch_axis_orthogonal :
    particleAxes ((0 : ℝ), 0, 0) ((1 : ℝ), 0, 0)
      = (((0 : ℝ), 0, -1), ((0 : ℝ), 1, 0), ((1 : ℝ), 0, 0))
    ∧ dotR (particleAxes ((0 : ℝ), 0, 0) ((1 : ℝ), 0, 0)).1 ((1 : ℝ), 0, 0) = 0
    ∧ (particleAxes ((0 : ℝ), 0, 0) ((1 : ℝ), 0, 0)).1 ≠ ((1 : ℝ), 0, 0)
    ∧ instanceCols ((0 : ℝ), 0, 0) ((1 : ℝ), 0, 0) 20 1
      = (((0 : ℝ), 0, -16), ((0 : ℝ), 0.3, 0), ((0.3 : ℝ), 0, 0)) := by
  have key : particleAxes ((0 : ℝ), 0, 0) ((1 : ℝ), 0, 0)
      = (((0 : ℝ), 0, -1), ((0 : ℝ), 1, 0), ((1 : ℝ), 0, 0)) := by
    norm_num [particleAxes, upDefault, dotR, lookAtOrient, lookAtCols, addR,
      subR, crossR, normalizeV, lengthR, lengthSqR, smulR, Real.sqrt_one]
  have hmax : max (2 : ℝ) (20 * 0.8) = 16 := by norm_num
  refine ⟨key, by rw [key]; norm_num [dotR], by rw [key]; norm_num, ?_⟩
  simp only [instanceCols, key, stretchOfR, smulR, hmax]
  norm_num

/-! ## Smoothstep and color-band lemmas (towards C4) -/

/-- The clamped argument lies in `[0, 1]`. -/
theorem clamp01_mem (u : ℝ) : 0 ≤ clamp01 u ∧ clamp01 u ≤ 1 :=
  ⟨le_min (le_max_right u 0) zero_le_one, min_le_right _ _⟩

/-- The clamped argument is bounded by the unclamped one in absolute value. -/
theorem clamp01_le_abs (u : ℝ) : clamp01 u ≤ |u| :=
  (min_le_left _ _).trans (max_le (le_abs_self u) (abs_nonneg u))

/-- Clamping commutes with the reflection `u ↦ 1 - u`. -/
theorem one_sub_clamp01 (u : ℝ) : 1 - clamp01 u = clamp01 (1 - u) := by
  rcases le_total u 0 with h | h
  · have h1 : (1 : ℝ) ≤ 1 - u := by linarith
    simp [clamp01, max_eq_right h, min_eq_left,
      max_eq_left (by linarith : (0 : ℝ) ≤ 1 - u), min_eq_right h1]
  · rcases le_total 1 u with h' | h'
    · simp [clamp01, max_eq_left (by linarith : (0 : ℝ) ≤ u), min_eq_right h',
        max_eq_right (by linarith : 1 - u ≤ 0)]
    · simp [clamp01, max_eq_left h, min_eq_left h',
        max_eq_left (by linarith : (0 : ℝ) ≤ 1 - u),
        min_eq_left (by linarith : 1 - u ≤ 1)]

/-- On `[0, 1]` the Hermite cubic is between `0` and `3 t²`. -/
theorem hermite_bounds (t : ℝ) (h0 : 0 ≤ t) (h1 : t ≤ 1) :
    0 ≤ hermite t ∧ hermite t ≤ 3 * t ^ 2 := by
  constructor
  · exact mul_nonneg (mul_nonneg h0 h0) (by linarith)
  · simp only [hermite]
    nlinarith [mul_nonneg (mul_nonneg h0 h0) h0]

/-- The Hermite cubic reflects around `(1/2, 1/2)`. -/
theorem hermite_one_sub (t : ℝ) : hermite (1 - t) = 1 - hermite t := by
  simp only [hermite]; ring

/-- The smooth ramp vanishes at its lower edge. -/
theorem smoothstepG_at_lo (e0 e1 : ℝ) : smoothstepG e0 e1 e0 = 0 := by
  norm_num [smoothstepG, clamp01, hermite]

/-- The smooth ramp is `1` at its upper edge. -/
theorem smoothstepG_at_hi (e0 e1 : ℝ) (he : e0 < e1) :
    smoothstepG e0 e1 e1 = 1 := by
  have hne : e1 - e0 ≠ 0 := sub_ne_zero.mpr (ne_of_gt he)
  norm_num [smoothstepG, div_self hne, clamp01, hermite]

/-- The smooth ramp is monotone. -/
theorem smoothstepG_monotone (e0 e1 : ℝ) (he : e0 < e1) :
    Monotone (smoothstepG e0 e1) := by
  intro a b hab
  have hΔ : (0 : ℝ) < e1 - e0 := by linarith
  have hdiv : (a - e0) / (e1 - e0) ≤ (b - e0) / (e1 - e0) :=
    (div_le_div_right hΔ).mpr (by linarith)
  have hc : clamp01 ((a - e0) / (e1 - e0)) ≤ clamp01 ((b - e0) / (e1 - e0)) :=
    min_le_min (max_le_max hdiv le_rfl) le_rfl
  obtain ⟨h0a, h1a⟩ := clamp01_mem ((a - e0) / (e1 - e0))
  obtain ⟨h0b, h1b⟩ := clamp01_mem ((b - e0) / (e1 - e0))
  set ca := clamp01 ((a - e0) / (e1 - e0))
  set cb := clamp01 ((b - e0) / (e1 - e0))
  show hermite ca ≤ hermite cb
  simp only [hermite]
  nlinarith [mul_nonneg (sub_nonneg.mpr hc) (mul_nonneg h0a h0b),
    mul_nonneg h0a (sub_nonneg.mpr h1a), mul_nonneg h0b (sub_nonneg.mpr h1b),
    mul_nonneg (add_nonneg h0a h0b) (by linarith : (0 : ℝ) ≤ 2 - ca - cb),
    sub_nonneg.mpr hc]

/-- Quadratic bound at the lower edge. -/
theorem smoothstepG_quad_lo (e0 e1 x : ℝ) :
    |smoothstepG e0 e1 x| ≤ 3 * ((x - e0) / (e1 - e0)) ^ 2 := by
  set u := (x - e0) / (e1 - e0)
  obtain ⟨h0, h1⟩ := clamp01_mem u
  obtain ⟨hn, hu⟩ := hermite_bounds (clamp01 u) h0 h1
  have hle : clamp01 u ≤ |u| := clamp01_le_abs u
  have : hermite (clamp01 u) ≤ 3 * u ^ 2 := by
    calc hermite (clamp01 u) ≤ 3 * clamp01 u ^ 2 := hu
    _ ≤ 3 * |u| ^ 2 := by nlinarith [abs_nonneg u]
    _ = 3 * u ^ 2 := by rw [sq_abs]
  rw [smoothstepG, abs_of_nonneg hn]
  exact this

/-- Quadratic bound at the upper edge. -/
theorem smoothstepG_quad_hi (e0 e1 x : ℝ) (he : e0 < e1) :
    |smoothstepG e0 e1 x - 1| ≤ 3 * ((x - e1) / (e1 - e0)) ^ 2 := by
  have hne : e1 - e0 ≠ 0 := sub_ne_zero.mpr (ne_of_gt he)
  set u := (x - e0) / (e1 - e0) with hu_def
  have key : smoothstepG e0 e1 x - 1 = -(hermite (clamp01 (1 - u))) := by
    rw [smoothstepG, ← hu_def, ← one_sub_clamp01, hermite_one_sub]
    ring
  obtain ⟨h0, h1⟩ := clamp01_mem (1 - u)
  obtain ⟨hn, hub⟩ := hermite_bounds (clamp01 (1 - u)) h0 h1
  have hle : clamp01 (1 - u) ≤ |1 - u| := clamp01_le_abs (1 - u)
  rw [key, abs_neg, abs_of_nonneg hn]
  calc hermite (clamp01 (1 - u)) ≤ 3 * clamp01 (1 - u) ^ 2 := hub
  _ ≤ 3 * |1 - u| ^ 2 := by nlinarith [abs_nonneg (1 - u)]
  _ = 3 * (1 - u) ^ 2 := by rw [sq_abs]
  _ = 3 * ((x - e1) / (e1 - e0)) ^ 2 := by
      rw [hu_def]
      field_simp
      ring

/-- The smooth ramp has derivative `0` at its lower edge. -/
theorem smoothstepG_deriv_lo (e0 e1 : ℝ) (he : e0 < e1) :
    HasDerivAt (smoothstepG e0 e1) 0 e0 := by
  have hΔ : (0 : ℝ) < e1 - e0 := by linarith
  rw [hasDerivAt_iff_tendsto_slope]
  have hbnd : ∀ x : ℝ, ‖slope (smoothstepG e0 e1) e0 x‖
      ≤ 3 / (e1 - e0) ^ 2 * |x - e0| := by
    intro x
    rw [slope_def_field, smoothstepG_at_lo, sub_zero, Real.norm_eq_abs, abs_div]
    rcases eq_or_ne x e0 with hx | hx
    · rw [hx]
      simp
    · have hxa : 0 < |x - e0| := abs_pos.mpr (sub_ne_zero.mpr hx)
      rw [div_le_iff hxa]
      have hq := smoothstepG_quad_lo e0 e1 x
      calc |smoothstepG e0 e1 x| ≤ 3 * ((x - e0) / (e1 - e0)) ^ 2 := hq
      _ = 3 / (e1 - e0) ^ 2 * |x - e0| * |x - e0| := by
          rw [mul_assoc, abs_mul_abs_self, div_pow]
          ring
  have htend : Filter.Tendsto (fun x : ℝ => 3 / (e1 - e0) ^ 2 * |x - e0|)
      (nhdsWithin e0 {e0}ᶜ) (nhds 0) := by
    have hcont : Continuous fun x : ℝ => 3 / (e1 - e0) ^ 2 * |x - e0| :=
      continuous_const.mul (continuous_id.sub continuous_const).abs
    have h2 := (hcont.tendsto e0).mono_left
      (nhdsWithin_le_nhds : nhdsWithin e0 {e0}ᶜ ≤ nhds e0)
    simpa using h2
  exact squeeze_zero_norm hbnd htend

/-- The smooth ramp has derivative `0` at its upper edge. -/
theorem smoothstepG_deriv_hi (e0 e1 : ℝ) (he : e0 < e1) :
    HasDerivAt (smoothstepG e0 e1) 0 e1 := by
  have hΔ : (0 : ℝ) < e1 - e0 := by linarith
  rw [hasDerivAt_iff_tendsto_slope]
  have hbnd : ∀ x : ℝ, ‖slope (smoothstepG e0 e1) e1 x‖
      ≤ 3 / (e1 - e0) ^ 2 * |x - e1| := by
    intro x
    rw [slope_def_field, smoothstepG_at_hi e0 e1 he, Real.norm_eq_abs, abs_div]
    rcases eq_or_ne x e1 with hx | hx
    · rw [hx]
      simp [smoothstepG_at_hi e0 e1 he]
    · have hxa : 0 < |x - e1| := abs_pos.mpr (sub_ne_zero.mpr hx)
      rw [div_le_iff hxa]
      have hq := smoothstepG_quad_hi e0 e1 x he
      calc |smoothstepG e0 e1 x - 1| ≤ 3 * ((x - e1) / (e1 - e0)) ^ 2 := hq
      _ = 3 / (e1 - e0) ^ 2 * |x - e1| * |x - e1| := by
          rw [mul_assoc, abs_mul_abs_self, div_pow]
          ring
  have htend : Filter.Tendsto (fun x : ℝ => 3 / (e1 - e0) ^ 2 * |x - e1|)
      (nhdsWithin e1 {e1}ᶜ) (nhds 0) := by
    have hcont : Continuous fun x : ℝ => 3 / (e1 - e0) ^ 2 * |x - e1| :=
      continuous_const.mul (continuous_id.sub continuous_const).abs
    have h2 := (hcont.tendsto e1).mono_left
      (nhdsWithin_le_nhds : nhdsWithin e1 {e1}ᶜ ≤ nhds e1)
    simpa using h2
  exact squeeze_zero_norm hbnd htend

/-- The smooth ramp is continuous. -/
theorem smoothstepG_continuous (e0 e1 : ℝ) :
    Continuous (smoothstepG e0 e1) := by
  have hherm : Continuous hermite := by
    show Continuous fun t : ℝ => t * t * (3 - 2 * t)
    exact (continuous_id.mul continuous_id).mul
      (continuous_const.sub (continuous_const.mul continuous_id))
  have hcl : Continuous fun x : ℝ => clamp01 ((x - e0) / (e1 - e0)) := by
    simp only [clamp01]
    exact (((continuous_id.sub continuous_const).div_const _).max
      continuous_const).min continuous_const
  exact hherm.comp hcl

/-- The scalar mix of a continuous ramp is continuous. -/
theorem mixS_ramp_continuous (a b e0 e1 : ℝ) :
    Continuous fun i : ℝ => mixS a b (smoothstepG e0 e1 i) := by
  simp only [mixS]
  exact (continuous_const.mul
      (continuous_const.sub (smoothstepG_continuous e0 e1))).add
    (continuous_const.mul (smoothstepG_continuous e0 e1))

/-- The two interpolating bands glued at the `0.2` boundary are continuous:
they agree there (both give the Mid channel value). -/
theorem upper_glue_continuous (lc mc hc : ℝ) :
    Continuous fun i : ℝ =>
      if i ≤ 0.2 then mixS lc mc (smoothstepG (-0.2) 0.2 i)
      else mixS mc hc (smoothstepG 0.2 1 i) := by
  apply Continuous.if_le (mixS_ramp_continuous lc mc (-0.2) 0.2)
    (mixS_ramp_continuous mc hc 0.2 1) continuous_id continuous_const
  intro x hx
  have hx' : x = 0.2 := hx
  subst hx'
  rw [smoothstepG_at_hi (-0.2) 0.2 (by norm_num), smoothstepG_at_lo]
  simp [mixS]

/-- Away from `-0.2` the scalar color mapping is continuous. -/
theorem colorMapC_continuousAt (lc mc hc fe i : ℝ) (hi : i ≠ -0.2) :
    ContinuousAt (colorMapC lc mc hc fe) i := by
  rcases lt_or_gt_of_ne hi with hlt | hgt
  · have hev : colorMapC lc mc hc fe =ᶠ[nhds i] fun _ => lc * (0.6 + fe) := by
      filter_upwards [isOpen_Iio.mem_nhds (show i ∈ Set.Iio (-0.2 : ℝ) from hlt)]
        with j hj
      have h1 : ¬ j > (0.2 : ℝ) := by simp only [Set.mem_Iio] at hj; push_neg; linarith
      have h2 : ¬ j > (-0.2 : ℝ) := by simp only [Set.mem_Iio] at hj; push_neg; linarith
      simp [colorMapC, h1, h2]
    rw [continuousAt_congr hev]
    exact continuousAt_const
  · have hev : colorMapC lc mc hc fe =ᶠ[nhds i] fun j =>
        if j ≤ 0.2 then mixS lc mc (smoothstepG (-0.2) 0.2 j)
        else mixS mc hc (smoothstepG 0.2 1 j) := by
      filter_upwards [isOpen_Ioi.mem_nhds (show i ∈ Set.Ioi (-0.2 : ℝ) from hgt)]
        with j hj
      simp only [Set.mem_Ioi] at hj
      rcases le_or_lt j 0.2 with hj2 | hj2
      · have h1 : ¬ j > (0.2 : ℝ) := not_lt.mpr hj2
        simp [colorMapC, h1, hj, if_pos hj2]
      · have h1 : ¬ j ≤ (0.2 : ℝ) := not_le.mpr hj2
        simp [colorMapC, hj2, if_neg h1]
    rw [continuousAt_congr hev]
    exact (upper_glue_continuous lc mc hc).continuousAt

/-- At `-0.2` the scalar color mapping jumps (for a nonzero Low channel and
a wake-brightness term within the shader's `±0.05` range): the wake value
`lc * (0.6 + fe)` differs from the right-hand limit `lc`. -/
theorem colorMapC_not_continuousAt (lc mc hc fe : ℝ) (hlc : lc ≠ 0)
    (hfe : |fe| ≤ 0.05) :
    ¬ ContinuousAt (colorMapC lc mc hc fe) (-0.2) := by
  intro h
  have hval : colorMapC lc mc hc fe (-0.2) = lc * (0.6 + fe) := by
    norm_num [colorMapC]
  have hright : Filter.Tendsto (colorMapC lc mc hc fe)
      (nhdsWithin (-0.2) (Set.Ioi (-0.2))) (nhds (lc * (0.6 + fe))) := by
    have hw : ContinuousWithinAt (colorMapC lc mc hc fe) (Set.Ioi (-0.2)) (-0.2) :=
      h.continuousWithinAt
    rw [← hval]
    exact hw
  have hev : (fun j => mixS lc mc (smoothstepG (-0.2) 0.2 j))
      =ᶠ[nhdsWithin (-0.2) (Set.Ioi (-0.2))] colorMapC lc mc hc fe := by
    filter_upwards [Ioo_mem_nhdsWithin_Ioi'
      (show (-0.2 : ℝ) < 0.2 by norm_num)] with j hj
    have h1 : ¬ j > (0.2 : ℝ) := not_lt.mpr (le_of_lt hj.2)
    have h2 : j > (-0.2 : ℝ) := hj.1
    simp [colorMapC, h1, h2]
  have hB : Filter.Tendsto (fun j => mixS lc mc (smoothstepG (-0.2) 0.2 j))
      (nhdsWithin (-0.2) (Set.Ioi (-0.2))) (nhds lc) := by
    have hc' := ((mixS_ramp_continuous lc mc (-0.2) 0.2).tendsto (-0.2)).mono_left
      (nhdsWithin_le_nhds (s := Set.Ioi (-0.2)))
    have hv : mixS lc mc (smoothstepG (-0.2) 0.2 (-0.2)) = lc := by
      rw [smoothstepG_at_lo]
      simp [mixS]
    rwa [hv] at hc'
  have huniq : lc = lc * (0.6 + fe) :=
    tendsto_nhds_unique (hB.congr' hev) hright
  have hzero : lc * (fe - 0.4) = 0 := by linear_combination -huniq
  rcases mul_eq_zero.mp hzero with h5 | h5
  · exact hlc h5
  · have habs := abs_le.mp hfe
    have : fe = 0.4 := by linarith
    linarith [habs.2]

/-- A unit vector is unchanged by GLSL normalization. -/
theorem glslNormalize_unit (v : Vec3R) (hv : lengthSqR v = 1) :
    glslNormalize v = v := by
  have hl : lengthR v = 1 := by rw [lengthR, hv, Real.sqrt_one]
  simp [glslNormalize, hl, smulR]

/-- For unit normal and wind the raw intensity lies in `[-1, 1]`. -/
theorem rawIntensity_abs_le_one (N W : Vec3R) (hN : lengthSqR N = 1)
    (hW : lengthSqR W = 1) : |rawIntensity N W| ≤ 1 := by
  rw [rawIntensity, glslNormalize_unit N hN, glslNormalize_unit W hW]
  obtain ⟨n1, n2, n3⟩ := N
  obtain ⟨w1, w2, w3⟩ := W
  simp only [lengthSqR, dotR] at hN hW
  simp only [dotR, negR]
  rw [abs_le]
  constructor
  · nlinarith [sq_nonneg (n1 - w1), sq_nonneg (n2 - w2), sq_nonneg (n3 - w3)]
  · nlinarith [sq_nonneg (n1 + w1), sq_nonneg (n2 + w2), sq_nonneg (n3 + w3)]

/-- The flow ripple is within `±0.05`. -/
theorem flowEffect_abs_le (P W : Vec3R) (t : ℝ) :
    |flowEffectOf P W t| ≤ 0.05 := by
  rw [flowEffectOf, abs_mul]
  have h1 : |Real.sin (flowPhaseOf P W t)| ≤ 1 :=
    abs_le.mpr ⟨Real.neg_one_le_sin _, Real.sin_le_one _⟩
  have h2 : |(0.05 : ℝ)| = 0.05 := by norm_num
  rw [h2]
  nlinarith [abs_nonneg (Real.sin (flowPhaseOf P W t))]

/-- The wake turbulence is within `±0.15`. -/
theorem turbulence_abs_le (P : Vec3R) (t : ℝ) : |turbulenceOf P t| ≤ 0.15 := by
  rw [turbulenceOf, abs_mul, abs_mul]
  have h1 : |Real.sin (P.1 * 5 + t * 10)| ≤ 1 :=
    abs_le.mpr ⟨Real.neg_one_le_sin _, Real.sin_le_one _⟩
  have h2 : |Real.sin (P.2.1 * 5 + t * 8)| ≤ 1 :=
    abs_le.mpr ⟨Real.neg_one_le_sin _, Real.sin_le_one _⟩
  have h3 : |(0.15 : ℝ)| = 0.15 := by norm_num
  rw [h3]
  nlinarith [abs_nonneg (Real.sin (P.1 * 5 + t * 10)),
    abs_nonneg (Real.sin (P.2.1 * 5 + t * 8))]

/-- For unit inputs the adjusted intensity stays in `[-1.15, 1.05]`. -/
theorem adjustedIntensity_range (N P W : Vec3R) (t : ℝ)
    (hN : lengthSqR N = 1) (hW : lengthSqR W = 1) :
    -1.15 ≤ adjustedIntensity N P W t ∧ adjustedIntensity N P W t ≤ 1.05 := by
  have hraw := abs_le.mp (rawIntensity_abs_le_one N W hN hW)
  have hfe := abs_le.mp (flowEffect_abs_le P W t)
  have ht := abs_le.mp (turbulence_abs_le P t)
  constructor
  · simp only [adjustedIntensity]
    split_ifs with hcase
    · linarith [hraw.1, ht.1]
    · linarith [hraw.1, hfe.1]
  · simp only [adjustedIntensity]
    split_ifs with hcase
    · linarith [ht.2]
    · linarith [hraw.2, hfe.2]

/-- Away from `-0.2` the vector color mapping of the shader palette is
continuous, in particular at the `+0.2` band boundary. -/
theorem colorMapV_continuousAt (fe i : ℝ) (hi : i ≠ -0.2) :
    ContinuousAt (colorMapV uColorLow uColorMid uColorHigh fe) i := by
  have h1 := colorMapC_continuousAt 0 1 1 fe i hi
  have h2 := colorMapC_continuousAt 0.5 1 0.2 fe i hi
  have h3 := colorMapC_continuousAt 1 0 0 fe i hi
  exact ContinuousAt.prod h1 (ContinuousAt.prod h2 h3)

/-- At `-0.2` the vector color mapping jumps: the blue channel of the Low
color is `1`, so the wake-brightness branch is a genuine discontinuity. -/
theorem colorMapV_not_continuousAt (fe : ℝ) (hfe : |fe| ≤ 0.05) :
    ¬ ContinuousAt (colorMapV uColorLow uColorMid uColorHigh fe) (-0.2) := by
  intro h
  have h3 : ContinuousAt (fun j : ℝ =>
      (colorMapV uColorLow uColorMid uColorHigh fe j).2.2) (-0.2) :=
    (continuous_snd.comp continuous_snd).continuousAt.comp h
  have h4 : ContinuousAt (colorMapC 1 0 0 fe) (-0.2) := h3
  exact colorMapC_not_continuousAt 1 0 0 fe one_ne_zero hfe h4

/-- Claim C4: for unit normal `N` and wind `W` the raw intensity lies in
`[-1, 1]` and the adjusted intensity in `[-1.15, 1.05]`, a range on which
the three-band color mapping is continuous at the `+0.2` band boundary (the
Mid-to-High and Low-to-Mid branches agree there); the smooth ramp is `0` at
its lower bound, `1` at its upper bound, monotone, with zero derivative at
both ends; and for every wake-brightness term within the shader's `±0.05`
range the mapping's only discontinuity is the wake branch at exactly
`-0.2`. -/
theorem shader_band_continuity_and_ramp (N P W : Vec3R) (t e0 e1 fe : ℝ)
    (hN : lengthSqR N = 1) (hW : lengthSqR W = 1) (he : e0 < e1)
    (hfe : |fe| ≤ 0.05) :
    |rawIntensity N W| ≤ 1
    ∧ -1.15 ≤ adjustedIntensity N P W t
    ∧ adjustedIntensity N P W t ≤ 1.05
    ∧ smoothstepG e0 e1 e0 = 0
    ∧ smoothstepG e0 e1 e1 = 1
    ∧ Monotone (smoothstepG e0 e1)
    ∧ HasDerivAt (smoothstepG e0 e1) 0 e0
    ∧ HasDerivAt (smoothstepG e0 e1) 0 e1
    ∧ ContinuousAt (colorMapV uColorLow uColorMid uColorHigh fe) 0.2
    ∧ (∀ i : ℝ, i ≠ -0.2 →
        ContinuousAt (colorMapV uColorLow uColorMid uColorHigh fe) i)
    ∧ ¬ ContinuousAt (colorMapV uColorLow uColorMid uColorHigh fe) (-0.2) := by
  obtain ⟨hr1, hr2⟩ := adjustedIntensity_range N P W t hN hW
  exact ⟨rawIntensity_abs_le_one N W hN hW, hr1, hr2,
    smoothstepG_at_lo e0 e1, smoothstepG_at_hi e0 e1 he,
    smoothstepG_monotone e0 e1 he, smoothstepG_deriv_lo e0 e1 he,
    smoothstepG_deriv_hi e0 e1 he,
    colorMapV_continuousAt fe 0.2 (by norm_num),
    fun i hi => colorMapV_continuousAt fe i hi,
    colorMapV_not_continuousAt fe hfe⟩

/-- Witness for C4 at `N = W = (1,0,0)`, ramp edges `0 < 1`, wake term `0`. -/
theorem shader_band_continuity_and_ramp_witness :
    |rawIntensity ((1 : ℝ), 0, 0) ((1 : ℝ), 0, 0)| ≤ 1
    ∧ smoothstepG 0 1 0 = 0 ∧ smoothstepG 0 1 1 = 1
    ∧ HasDerivAt (smoothstepG 0 1) 0 0 ∧ HasDerivAt (smoothstepG 0 1) 0 1
    ∧ ContinuousAt (colorMapV uColorLow uColorMid uColorHigh 0) 0.2
    ∧ ¬ ContinuousAt (colorMapV uColorLow uColorMid uColorHigh 0) (-0.2) := by
  have h := shader_band_continuity_and_ramp ((1 : ℝ), 0, 0) ((0 : ℝ), 0, 0)
    ((1 : ℝ), 0, 0) 0 0 1 0 (by norm_num [lengthSqR, dotR])
    (by norm_num [lengthSqR, dotR]) (by norm_num) (by norm_num)
  exact ⟨h.1, h.2.2.2.1, h.2.2.2.2.1, h.2.2.2.2.2.2.1, h.2.2.2.2.2.2.2.1,
    h.2.2.2.2.2.2.2.2.1, h.2.2.2.2.2.2.2.2.2.2⟩

end AeroFlow
